import Mathlib

/-!
Verification development for the PSA-daisy repository: a Power BI
extract / transform / persist / index pipeline together with a streaming
chat relay.  The definitions below are a shallow embedding of the
JavaScript / TypeScript source files:

* `executeDaxQuery`            from `backend/src/services/powerbi.js`
* `processPowerBiResponse` and
  `saveToParquet`              from `backend/src/services/azureStorage.js`
* `PipelineService.run`        from `backend/src/services/pipeline.js`
* `POST`                       from `frontend/src/app/api/chat/route.ts`

External collaborators (the HTTP fetch, the blob store, the search
service, the file system, the clock) are modelled as explicit oracle
parameters, and the observable side effects of each operation are
recorded in an event trace returned alongside the result.
-/

/-! ## Data model -/

/-- A scalar cell value of a Power BI row: string, number, boolean or null. -/
inductive Scalar
  | s (v : String)
  | n (v : Int)
  | b (v : Bool)
  | null
deriving DecidableEq, Repr

/-- A row is a mapping from column name to scalar value (insertion ordered). -/
abbrev Row := List (String × Scalar)

/-- One table of a raw Power BI query-result envelope.  The `rows` field may
be absent in the raw JSON, hence the `Option`. -/
structure PBTable where
  rows : Option (List Row)
deriving DecidableEq, Repr

/-- One entry of the `results` array of a raw envelope; its `tables` field may
be absent. -/
structure PBResult where
  tables : Option (List PBTable)
deriving DecidableEq, Repr

/-- A raw Power BI query-result envelope; its `results` field may be absent.
A wholly absent (null) envelope is modelled as `none` at use sites. -/
structure PBEnvelope where
  results : Option (List PBResult)
deriving DecidableEq, Repr

/-! ## QueryExecutor: `executeDaxQuery` (powerbi.js)

The HTTP call of attempt `i` is abstracted as an oracle
`outcome : Nat → Except ε α`: `outcome i` is either the parsed JSON of a
successful attempt or the error thrown by attempt `i` (non-ok status or
network failure).  The loop records an event per attempt and per backoff
wait.  The JavaScript loop throws `lastError`, which is `undefined` when
`retries = 0`; the raised value is therefore an `Option ε`. -/

/-- Observable events of one `executeDaxQuery` call. -/
inductive QEvent
  | attempt (i : Nat)
  | wait (ms : Nat)
deriving DecidableEq, Repr

/-- The retry loop of `executeDaxQuery`: `remaining` counts the loop
iterations still allowed, `i` is the current 0-based attempt index and
`lastError` is the most recently recorded error.  Mirrors
`for (let i = 0; i < retries; i++) { ... }` with the fixed 2000 ms backoff
taken when `i < retries - 1` after a failed attempt. -/
def execLoop (outcome : Nat → Except ε α) (retries : Nat) :
    Nat → Nat → Option ε → List QEvent × Except (Option ε) α
  | 0, _, lastError => ([], Except.error lastError)
  | m + 1, i, _ =>
    match outcome i with
    | Except.ok d => ([QEvent.attempt i], Except.ok d)
    | Except.error e =>
      let tail := execLoop outcome retries m (i + 1) (some e)
      (QEvent.attempt i ::
        (if i < retries - 1 then QEvent.wait 2000 :: tail.1 else tail.1),
       tail.2)

/-- `executeDaxQuery` with `retries` attempts, returning the event trace and
either the first successful result or the raised error. -/
def executeDaxQuery (outcome : Nat → Except ε α) (retries : Nat) :
    List QEvent × Except (Option ε) α :=
  execLoop outcome retries retries 0 none

/-- The 0-based indices of the attempts recorded in a trace, in order. -/
def attemptIdxs : List QEvent → List Nat
  | [] => []
  | QEvent.attempt i :: rest => i :: attemptIdxs rest
  | _ :: rest => attemptIdxs rest

/-- The durations of the backoff waits recorded in a trace, in order. -/
def waitTimes : List QEvent → List Nat
  | [] => []
  | QEvent.wait ms :: rest => ms :: waitTimes rest
  | _ :: rest => waitTimes rest

/-! ## ResponseNormalizer: `processPowerBiResponse` (azureStorage.js) -/

/-- `processPowerBiResponse`: converts a raw envelope into a flat row set, or
`null` when the structure is invalid.  The argument is `none` for a null
envelope.  Mirrors the source checks `!powerBiResponse`,
`!powerBiResponse.results`, `!powerBiResponse.results[0]`, the default
`tables = results[0].tables || []`, the `tables.length === 0` check, and the
final `tables[0].rows || []`. -/
def processPowerBiResponse (powerBiResponse : Option PBEnvelope) : Option (List Row) :=
  match powerBiResponse with
  | none => none
  | some resp =>
    match resp.results with
    | none => none
    | some results =>
      match results with
      | [] => none
      | first :: _ =>
        match first.tables.getD [] with
        | [] => none
        | t :: _ => some (t.rows.getD [])

/-! ## ColumnarWriter: `saveToParquet` (azureStorage.js)

The local file system and the blob upload are abstracted into an event
trace; whether the upload call succeeds is an oracle parameter
`uploadOk`.  The source has no try/finally: the `fs.unlink` runs only
after a successful upload. -/

/-- The persistence failure modes of `saveToParquet`: the guard
`No data to save.` and a failed blob upload. -/
inductive PersistError
  | noData
  | uploadFailed
deriving DecidableEq, Repr

/-- Observable events of one `saveToParquet` call. -/
inductive StEvent
  | deriveSchema (cols : List String)
  | writeTemp (p : String)
  | readTemp (p : String)
  | upload (blobName : String)
  | unlink (p : String)
deriving DecidableEq, Repr

/-- `path.join(os.tmpdir(), blobName + ".parquet")` with the temp dir fixed. -/
def tempFilePath (blobName : String) : String :=
  "/tmp/" ++ blobName ++ ".parquet"

/-- `saveToParquet data blobName`: rejects empty data, derives the schema
from the keys of the first row, writes the temporary columnar file, reads it
back, uploads it, and unlinks the temporary file only when the upload
succeeded (the source performs the unlink after the upload with no
try/finally). -/
def saveToParquet (uploadOk : Bool) (data : List Row) (blobName : String) :
    List StEvent × Except PersistError String :=
  match data with
  | [] => ([], Except.error PersistError.noData)
  | firstRow :: _ =>
    let tfp := tempFilePath blobName
    let trace :=
      [StEvent.deriveSchema (firstRow.map Prod.fst), StEvent.writeTemp tfp,
       StEvent.readTemp tfp, StEvent.upload blobName]
    if uploadOk then
      (trace ++ [StEvent.unlink tfp],
       Except.ok ("Parquet data saved to blob: " ++ blobName))
    else
      (trace, Except.error PersistError.uploadFailed)

/-- The local temporary files still present after a trace: each `writeTemp`
creates one, each `unlink` removes it. -/
def tempFilesRemaining (trace : List StEvent) : List String :=
  trace.foldl
    (fun acc ev =>
      match ev with
      | StEvent.writeTemp p => acc ++ [p]
      | StEvent.unlink p => acc.filter (fun q => q != p)
      | _ => acc) []

/-! ## PipelineOrchestrator: `PipelineService.run` (pipeline.js)

Collaborator oracles: `ensure` is the outcome of `createSearchIndex`
(throwing aborts the run); `exec queryName` is the overall outcome of the
query executor for that query, after its internal retries (`Except.error`
when the retries were exhausted and the final error was rethrown,
`Except.ok none` when the call resolved to a null JSON body);
`uploadOk queryName` tells whether the blob upload for that query
succeeds; `indexResult` is the outcome of `indexPowerBIData`; `now` stands
for `Date.now()`.  Any uncaught exception is an `Except.error`: the source
`run` has no try/catch, so these abort the run. -/

/-- The uncaught exceptions that can abort `PipelineService.run`. -/
inductive RunError
  | indexCreationError (e : String)
  | queryError (e : String)
  | persistError (e : PersistError)
  | indexUploadError (e : String)
deriving DecidableEq, Repr

/-- The aggregate result returned by a completed `run`. -/
structure PipelineRunResult where
  extractedData : List (String × PBEnvelope)
  processedData : List (String × List Row)
  pipelineStatus : String
deriving DecidableEq, Repr

/-- The blob name `powerbi_data/\x7bqueryName\x7d_\x7bDate.now()\x7d.parquet`. -/
def pipelineBlobName (queryName : String) (now : Nat) : String :=
  "powerbi_data/" ++ queryName ++ "_" ++ toString now ++ ".parquet"

namespace PipelineService

/-- The per-query loop of `run`: iterates the queries in insertion order,
accumulating `extractedData` and `processedData`.  A thrown executor error
or persistence error propagates (no try/catch in the source); a null raw
result or a null normalization skips the query. -/
def runQueries (exec : String → Except String (Option PBEnvelope))
    (uploadOk : String → Bool) (now : Nat) :
    List (String × String) → List (String × PBEnvelope) → List (String × List Row) →
    Except RunError (List (String × PBEnvelope) × List (String × List Row))
  | [], extractedData, processedData => Except.ok (extractedData, processedData)
  | (queryName, _) :: rest, extractedData, processedData =>
    match exec queryName with
    | Except.error e => Except.error (RunError.queryError e)
    | Except.ok none => runQueries exec uploadOk now rest extractedData processedData
    | Except.ok (some result) =>
      match processPowerBiResponse (some result) with
      | none => runQueries exec uploadOk now rest extractedData processedData
      | some processed =>
        match (saveToParquet (uploadOk queryName) processed
                 (pipelineBlobName queryName now)).2 with
        | Except.error pe => Except.error (RunError.persistError pe)
        | Except.ok _ =>
          runQueries exec uploadOk now rest (extractedData ++ [(queryName, result)])
            (processedData ++ [(queryName, processed)])

/-- `PipelineService.run`: ensure the index, process every query, index the
accumulated data when there is any, and return the aggregate with
`pipelineStatus` equal to `completed` when `processedData` is non-empty and
`failed` otherwise. -/
def run (ensure : Except String Unit)
    (exec : String → Except String (Option PBEnvelope))
    (uploadOk : String → Bool) (indexResult : Except String Bool) (now : Nat)
    (daxQueries : List (String × String)) : Except RunError PipelineRunResult :=
  match ensure with
  | Except.error e => Except.error (RunError.indexCreationError e)
  | Except.ok _ =>
    match runQueries exec uploadOk now daxQueries [] [] with
    | Except.error e => Except.error e
    | Except.ok (extractedData, processedData) =>
      let status := if processedData.length > 0 then "completed" else "failed"
      if processedData.length > 0 then
        match indexResult with
        | Except.error e => Except.error (RunError.indexUploadError e)
        | Except.ok _ => Except.ok ⟨extractedData, processedData, status⟩
      else Except.ok ⟨extractedData, processedData, status⟩

end PipelineService

/-! ## StreamRelay: `POST` (frontend/src/app/api/chat/route.ts)

`parseBody` is the outcome of `req.json()` (a throw lands in the outer
catch), `backendUrl` is `process.env.BACKEND_URL` (`none` when unset), and
`upstream url message` is the outcome of the `fetch` to the backend
(`Except.error` when the fetch itself throws).  The upstream body is a list
of chunks; the relay re-emits each decoded chunk unchanged. -/

/-- Observable network events of one relay invocation. -/
inductive RelayEvent
  | fetchUpstream (url : String) (message : String)
deriving DecidableEq, Repr

/-- The upstream response seen by the relay. -/
structure UpstreamResponse where
  ok : Bool
  status : Nat
  statusText : String
  body : Option (List String)
deriving DecidableEq, Repr

/-- The response the relay returns to the original caller. -/
structure RelayResponse where
  status : Nat
  headers : List (String × String)
  body : List String
deriving DecidableEq, Repr

/-- The relay route handler `POST`. -/
def POST (parseBody : Except Unit String) (backendUrl : Option String)
    (upstream : String → String → Except Unit UpstreamResponse) :
    List RelayEvent × RelayResponse :=
  match parseBody with
  | Except.error _ => ([], ⟨500, [], ["Internal Server Error"]⟩)
  | Except.ok message =>
    match backendUrl with
    | none => ([], ⟨500, [], ["Backend URL is not configured."]⟩)
    | some url =>
      match upstream url message with
      | Except.error _ =>
        ([RelayEvent.fetchUpstream url message], ⟨500, [], ["Internal Server Error"]⟩)
      | Except.ok resp =>
        if resp.ok then
          match resp.body with
          | none =>
            ([RelayEvent.fetchUpstream url message],
             ⟨500, [], ["No response body from backend."]⟩)
          | some chunks =>
            ([RelayEvent.fetchUpstream url message],
             ⟨200,
              [("Content-Type", "text/event-stream"), ("Cache-Control", "no-cache"),
               ("Connection", "keep-alive")],
              chunks⟩)
        else
          ([RelayEvent.fetchUpstream url message], ⟨resp.status, [], [resp.statusText]⟩)

/-! ## Spec-side definition for the normalizer null condition -/

/-- The condition under which, following the words of the specification,
`normalize` returns null: the envelope lacks a results array, the first
result lacks a tables array (in particular when there is no first result),
or the tables array is empty.  This definition follows the words of the
spec and is compared against `processPowerBiResponse`, which is translated
from the source. -/
def normalizeNullSpec (resp : Option PBEnvelope) : Bool :=
  match resp with
  | none => true
  | some env =>
    match env.results with
    | none => true
    | some results =>
      match results.head? with
      | none => true
      | some first =>
        match first.tables with
        | none => true
        | some tables => tables.isEmpty
/-! ## Lemmas about the retry loop -/

/-- When every attempt in `[i, k)` fails and attempt `k` succeeds, the loop
started at attempt `i` returns the successful result, records one 2000 ms
wait per failed attempt, and makes exactly the attempts `i, ..., k`. -/
theorem execLoop_ok (outcome : Nat → Except ε α) (retries k : Nat) (d : α)
    (hk : k < retries) (hok : outcome k = Except.ok d) :
    ∀ m i last, i + m = retries → i ≤ k →
      (∀ j, i ≤ j → j < k → ∃ e, outcome j = Except.error e) →
      (execLoop outcome retries m i last).2 = Except.ok d ∧
      waitTimes (execLoop outcome retries m i last).1 = List.replicate (k - i) 2000 ∧
      attemptIdxs (execLoop outcome retries m i last).1 = List.range' i (k + 1 - i) := by
  intro m
  induction m with
  | zero => intro i last him hik hfail; omega
  | succ m ih =>
    intro i last him hik hfail
    by_cases hik' : i = k
    · subst hik'
      have hstep : execLoop outcome retries (m + 1) i last =
          ([QEvent.attempt i], Except.ok d) := by
        simp only [execLoop, hok]
      rw [hstep]
      refine ⟨rfl, by simp [waitTimes], ?_⟩
      rw [show i + 1 - i = 1 from by omega]
      rfl
    · have hlt : i < k := lt_of_le_of_ne hik hik'
      obtain ⟨e, he⟩ := hfail i le_rfl hlt
      have hwait : i < retries - 1 := by omega
      obtain ⟨h1, h2, h3⟩ := ih (i + 1) (some e) (by omega) (by omega)
        (fun j hj1 hj2 => hfail j (by omega) hj2)
      have hstep : execLoop outcome retries (m + 1) i last =
          (QEvent.attempt i :: QEvent.wait 2000 ::
             (execLoop outcome retries m (i + 1) (some e)).1,
           (execLoop outcome retries m (i + 1) (some e)).2) := by
        simp only [execLoop, he, if_pos hwait]
      rw [hstep]
      refine ⟨h1, ?_, ?_⟩
      · simp only [waitTimes, h2]
        rw [show k - i = (k - (i + 1)) + 1 from by omega]
        rfl
      · simp only [attemptIdxs, h3]
        rw [show k + 1 - (i + 1) = k - i from by omega,
          show k + 1 - i = (k - i) + 1 from by omega, List.range'_succ i (k - i) 1]

/-- When every attempt in `[i, retries)` fails, the loop started at attempt
`i` raises the error of attempt `retries - 1` (or the incoming `lastError`
when no iterations remain) and makes exactly the attempts
`i, ..., retries - 1`. -/
theorem execLoop_allFail (outcome : Nat → Except ε α) (retries : Nat) (errf : Nat → ε)
    (hfail : ∀ j, j < retries → outcome j = Except.error (errf j)) :
    ∀ m i last, i + m = retries →
      (execLoop outcome retries m i last).2 =
        Except.error (if m = 0 then last else some (errf (retries - 1))) ∧
      attemptIdxs (execLoop outcome retries m i last).1 = List.range' i m := by
  intro m
  induction m with
  | zero => intro i last him; exact ⟨rfl, rfl⟩
  | succ m ih =>
    intro i last him
    have he : outcome i = Except.error (errf i) := hfail i (by omega)
    obtain ⟨h1, h2⟩ := ih (i + 1) (some (errf i)) (by omega)
    have hres : (execLoop outcome retries (m + 1) i last).2 =
        (execLoop outcome retries m (i + 1) (some (errf i))).2 := by
      simp only [execLoop, he]
    have htr : attemptIdxs (execLoop outcome retries (m + 1) i last).1 =
        i :: attemptIdxs (execLoop outcome retries m (i + 1) (some (errf i))).1 := by
      by_cases hw : i < retries - 1
      · simp only [execLoop, he, if_pos hw, attemptIdxs]
      · simp only [execLoop, he, if_neg hw, attemptIdxs]
    constructor
    · rw [hres, h1]
      by_cases hm : m = 0
      · subst hm
        rw [if_pos rfl, if_neg (by omega), show retries - 1 = i from by omega]
      · rw [if_neg hm, if_neg (by omega)]
    · rw [htr, h2, List.range'_succ i m 1]
/-! ## Claim C3 -/

/-- Claim C3: for every query-executor call with `retries` attempts, if the
first `k` attempts fail with `k < retries` and attempt `k + 1` succeeds,
then exactly `k` fixed-interval (2000 ms) backoff waits occur, the
successful result is returned, and the attempts made are exactly the
attempts `1, ..., k + 1` (0-based indices `0, ..., k`): none after the
success. -/
theorem executeDaxQuery_retry_success (outcome : Nat → Except ε α)
    (retries k : Nat) (d : α) (hk : k < retries)
    (hfail : ∀ j, j < k → ∃ e, outcome j = Except.error e)
    (hok : outcome k = Except.ok d) :
    (executeDaxQuery outcome retries).2 = Except.ok d ∧
    waitTimes (executeDaxQuery outcome retries).1 = List.replicate k 2000 ∧
    attemptIdxs (executeDaxQuery outcome retries).1 = List.range' 0 (k + 1) := by
  obtain ⟨h1, h2, h3⟩ := execLoop_ok outcome retries k d hk hok retries 0 none
    (by omega) (by omega) (fun j _ hj => hfail j hj)
  exact ⟨h1, by simpa using h2, by simpa using h3⟩

/-- Witness for C3: two failing attempts followed by a success give the
successful value, two 2000 ms waits, and attempts `0, 1, 2`. -/
theorem executeDaxQuery_retry_success_witness :
    (executeDaxQuery
        (fun i => if i < 2 then Except.error (toString i) else Except.ok (7 : Nat)) 3).2
      = Except.ok 7 ∧
    waitTimes (executeDaxQuery
        (fun i => if i < 2 then Except.error (toString i) else Except.ok (7 : Nat)) 3).1
      = List.replicate 2 2000 ∧
    attemptIdxs (executeDaxQuery
        (fun i => if i < 2 then Except.error (toString i) else Except.ok (7 : Nat)) 3).1
      = List.range' 0 (2 + 1) :=
  executeDaxQuery_retry_success
    (fun i => if i < 2 then Except.error (toString i) else Except.ok (7 : Nat))
    3 2 7 (by omega)
    (fun j hj => ⟨toString j, by simp [hj]⟩)
    (by simp)

/-! ## Claim C4 -/

/-- Claim C4: for every query-executor call with `retries ≥ 1` attempts in
which all `retries` attempts fail, the call raises the error recorded on
the last attempt (0-based index `retries - 1`), and the attempts made are
exactly the attempts `0, ..., retries - 1`: exactly `retries` in total,
none after the last failure. -/
theorem executeDaxQuery_exhausted (outcome : Nat → Except ε α)
    (retries : Nat) (errf : Nat → ε) (hpos : 0 < retries)
    (hfail : ∀ j, j < retries → outcome j = Except.error (errf j)) :
    (executeDaxQuery outcome retries).2 = Except.error (some (errf (retries - 1))) ∧
    attemptIdxs (executeDaxQuery outcome retries).1 = List.range' 0 retries := by
  obtain ⟨h1, h2⟩ := execLoop_allFail outcome retries errf hfail retries 0 none (by omega)
  rw [if_neg (by omega)] at h1
  exact ⟨h1, h2⟩

/-- Witness for C4: three attempts all failing raise the last error and make
exactly the attempts `0, 1, 2`. -/
theorem executeDaxQuery_exhausted_witness :
    (executeDaxQuery (fun i => (Except.error (toString i) : Except String Nat)) 3).2
      = Except.error (some (toString 2)) ∧
    attemptIdxs
        (executeDaxQuery (fun i => (Except.error (toString i) : Except String Nat)) 3).1
      = List.range' 0 3 :=
  executeDaxQuery_exhausted (fun i => (Except.error (toString i) : Except String Nat))
    3 (fun i => toString i) (by omega) (fun j _ => rfl)
/-! ## Claim C6 -/

/-- Claim C6: for the empty row set, `saveToParquet` fails with the
persistence error `No data to save.` and records no event at all: the
error is raised before any schema derivation, temporary-file write or blob
upload. -/
theorem saveToParquet_empty (uploadOk : Bool) (blobName : String) :
    (saveToParquet uploadOk [] blobName).2 = Except.error PersistError.noData ∧
    (saveToParquet uploadOk [] blobName).1 = [] :=
  ⟨rfl, rfl⟩

/-! ## Claim C2 -/

/-- Counterexample to claim C2 as stated: for a concrete non-empty row set
with a failing upload, the temporary columnar file is still present after
`saveToParquet` returns. -/
theorem saveToParquet_cleanup_cx :
    ¬ tempFilesRemaining
        (saveToParquet false [[("region", Scalar.s "A")]] "b").1 = [] := by
  decide

/-- Claim C2 (amended): for every non-empty row set, `saveToParquet` leaves
zero local temporary files behind when the blob upload succeeds, but when
the upload fails the error propagates before the cleanup step runs and
exactly the temporary file it created remains behind. -/
theorem saveToParquet_cleanup (data : List Row) (blobName : String)
    (h : data ≠ []) :
    tempFilesRemaining (saveToParquet true data blobName).1 = [] ∧
    tempFilesRemaining (saveToParquet false data blobName).1
      = [tempFilePath blobName] := by
  obtain ⟨r, rs, rfl⟩ := List.exists_cons_of_ne_nil h
  constructor
  · simp [saveToParquet, tempFilesRemaining]
  · simp [saveToParquet, tempFilesRemaining]

/-- Witness for the amended C2: a concrete one-row row set. -/
theorem saveToParquet_cleanup_witness :
    tempFilesRemaining (saveToParquet true [[("region", Scalar.s "A")]] "b").1 = [] ∧
    tempFilesRemaining (saveToParquet false [[("region", Scalar.s "A")]] "b").1
      = [tempFilePath "b"] :=
  saveToParquet_cleanup [[("region", Scalar.s "A")]] "b" (by simp)
/-! ## Claim C5 -/

/-- Claim C5: `processPowerBiResponse` returns null exactly when the
envelope lacks a results array, the first result lacks a tables array (in
particular when there is no first result), or the tables array is empty;
otherwise it returns the rows of the first table, whatever the additional
tables of a multi-table response and the additional results are. -/
theorem processPowerBiResponse_null_iff (resp : Option PBEnvelope) :
    (processPowerBiResponse resp = none ↔ normalizeNullSpec resp = true) ∧
    (∀ env first rest t ts, resp = some env → env.results = some (first :: rest) →
      first.tables = some (t :: ts) →
      processPowerBiResponse resp = some (t.rows.getD [])) := by
  constructor
  · match resp with
    | none => simp [processPowerBiResponse, normalizeNullSpec]
    | some env =>
      match henv : env.results with
      | none => simp [processPowerBiResponse, normalizeNullSpec, henv]
      | some [] => simp [processPowerBiResponse, normalizeNullSpec, henv]
      | some (first :: rest) =>
        match hft : first.tables with
        | none => simp [processPowerBiResponse, normalizeNullSpec, henv, hft]
        | some [] => simp [processPowerBiResponse, normalizeNullSpec, henv, hft]
        | some (t :: ts) => simp [processPowerBiResponse, normalizeNullSpec, henv, hft]
  · intro env first rest t ts hresp henv hft
    subst hresp
    simp [processPowerBiResponse, henv, hft]

/-- Witness for C5: a concrete envelope with one table of one row
normalizes to that row, and the null condition fails for it. -/
theorem processPowerBiResponse_null_iff_witness :
    processPowerBiResponse
        (some ⟨some [⟨some [⟨some [[("c", Scalar.s "v")]]⟩]⟩]⟩)
      = some [[("c", Scalar.s "v")]] := by
  have h := (processPowerBiResponse_null_iff
      (some ⟨some [⟨some [⟨some [[("c", Scalar.s "v")]]⟩]⟩]⟩)).2
    ⟨some [⟨some [⟨some [[("c", Scalar.s "v")]]⟩]⟩]⟩
    ⟨some [⟨some [[("c", Scalar.s "v")]]⟩]⟩ []
    ⟨some [[("c", Scalar.s "v")]]⟩ [] rfl rfl rfl
  simpa using h
/-! ## Claim C8 -/

/-- Claim C8: for every relay invocation in which the upstream URL is
unconfigured, `POST` makes no upstream network call (so it never enters the
forwarding state) and returns an immediate failure response with status
500, whatever the request body and the upstream behaviour. -/
theorem relay_unconfigured (parseBody : Except Unit String)
    (upstream : String → String → Except Unit UpstreamResponse) :
    (POST parseBody none upstream).1 = [] ∧
    (POST parseBody none upstream).2.status = 500 := by
  cases parseBody <;> exact ⟨rfl, rfl⟩

/-! ## Lemmas about the pipeline loop -/

/-- One step of the per-query loop, as an equation. -/
theorem runQueries_cons (exec : String → Except String (Option PBEnvelope))
    (uploadOk : String → Bool) (now : Nat) (queryName dax : String)
    (rest : List (String × String)) (ext : List (String × PBEnvelope))
    (proc : List (String × List Row)) :
    PipelineService.runQueries exec uploadOk now ((queryName, dax) :: rest) ext proc =
      match exec queryName with
      | Except.error e => Except.error (RunError.queryError e)
      | Except.ok none => PipelineService.runQueries exec uploadOk now rest ext proc
      | Except.ok (some result) =>
        match processPowerBiResponse (some result) with
        | none => PipelineService.runQueries exec uploadOk now rest ext proc
        | some processed =>
          match (saveToParquet (uploadOk queryName) processed
                   (pipelineBlobName queryName now)).2 with
          | Except.error pe => Except.error (RunError.persistError pe)
          | Except.ok _ =>
            PipelineService.runQueries exec uploadOk now rest
              (ext ++ [(queryName, result)]) (proc ++ [(queryName, processed)]) := rfl

/-- The per-query loop over an appended list runs the first part and, when
that part does not abort, continues with the second part from the
accumulated state. -/
theorem runQueries_append (exec : String → Except String (Option PBEnvelope))
    (uploadOk : String → Bool) (now : Nat) :
    ∀ (qs1 qs2 : List (String × String)) ext proc,
      PipelineService.runQueries exec uploadOk now (qs1 ++ qs2) ext proc =
        match PipelineService.runQueries exec uploadOk now qs1 ext proc with
        | Except.error e => Except.error e
        | Except.ok (ext', proc') =>
          PipelineService.runQueries exec uploadOk now qs2 ext' proc' := by
  intro qs1
  induction qs1 with
  | nil => intro qs2 ext proc; rfl
  | cons head rest ih =>
    obtain ⟨queryName, dax⟩ := head
    intro qs2 ext proc
    rw [List.cons_append, runQueries_cons, runQueries_cons]
    split
    · rfl
    · exact ih qs2 ext proc
    · split
      · exact ih qs2 ext proc
      · split
        · rfl
        · exact ih qs2 _ _
/-- Every entry of the processed-data accumulator returned by the loop was
already accumulated or comes from a query of the list whose raw result was
non-null, whose normalization was non-null, and whose persistence call
succeeded. -/
theorem runQueries_mem (exec : String → Except String (Option PBEnvelope))
    (uploadOk : String → Bool) (now : Nat) :
    ∀ (qs : List (String × String)) ext proc ext' proc',
      PipelineService.runQueries exec uploadOk now qs ext proc
        = Except.ok (ext', proc') →
      ∀ p, p ∈ proc' →
        p ∈ proc ∨ ∃ dax env, (p.1, dax) ∈ qs ∧ exec p.1 = Except.ok (some env) ∧
          processPowerBiResponse (some env) = some p.2 ∧
          ((saveToParquet (uploadOk p.1) p.2 (pipelineBlobName p.1 now)).2).isOk
            = true := by
  intro qs
  induction qs with
  | nil =>
    intro ext proc ext' proc' h p hp
    simp only [PipelineService.runQueries, Except.ok.injEq, Prod.mk.injEq] at h
    exact Or.inl (h.2 ▸ hp)
  | cons head rest ih =>
    obtain ⟨queryName, dax⟩ := head
    intro ext proc ext' proc' h p hp
    rw [runQueries_cons] at h
    split at h
    · exact absurd h (by simp)
    · rcases ih ext proc ext' proc' h p hp with h1 | ⟨dax', env, hq, h2, h3, h4⟩
      · exact Or.inl h1
      · exact Or.inr ⟨dax', env, List.mem_cons_of_mem _ hq, h2, h3, h4⟩
    · rename_i result heq
      split at h
      · rcases ih ext proc ext' proc' h p hp with h1 | ⟨dax', env, hq, h2, h3, h4⟩
        · exact Or.inl h1
        · exact Or.inr ⟨dax', env, List.mem_cons_of_mem _ hq, h2, h3, h4⟩
      · rename_i processed hpr
        split at h
        · exact absurd h (by simp)
        · rename_i m hsv
          rcases ih _ _ _ _ h p hp with h1 | ⟨dax', env, hq, h2, h3, h4⟩
          · rcases List.mem_append.mp h1 with hl | hr
            · exact Or.inl hl
            · have hpq : p = (queryName, processed) := by simpa using hr
              subst hpq
              refine Or.inr ⟨dax, result, by simp, heq, hpr, ?_⟩
              simp [hsv, Except.isOk, Except.toBool]
          · exact Or.inr ⟨dax', env, List.mem_cons_of_mem _ hq, h2, h3, h4⟩

/-- The loop updates the raw-data and processed-data accumulators together:
it preserves the equality of their key sequences. -/
theorem runQueries_keys (exec : String → Except String (Option PBEnvelope))
    (uploadOk : String → Bool) (now : Nat) :
    ∀ (qs : List (String × String)) ext proc ext' proc',
      PipelineService.runQueries exec uploadOk now qs ext proc
        = Except.ok (ext', proc') →
      ext.map Prod.fst = proc.map Prod.fst →
      ext'.map Prod.fst = proc'.map Prod.fst := by
  intro qs
  induction qs with
  | nil =>
    intro ext proc ext' proc' h hk
    simp only [PipelineService.runQueries, Except.ok.injEq, Prod.mk.injEq] at h
    rw [← h.1, ← h.2]
    exact hk
  | cons head rest ih =>
    obtain ⟨queryName, dax⟩ := head
    intro ext proc ext' proc' h hk
    rw [runQueries_cons] at h
    split at h
    · exact absurd h (by simp)
    · exact ih ext proc ext' proc' h hk
    · split at h
      · exact ih ext proc ext' proc' h hk
      · split at h
        · exact absurd h (by simp)
        · exact ih _ _ _ _ h (by simp [hk])

/-- `PipelineService.run` as an equation. -/
theorem run_eq (ensure : Except String Unit)
    (exec : String → Except String (Option PBEnvelope)) (uploadOk : String → Bool)
    (indexResult : Except String Bool) (now : Nat)
    (daxQueries : List (String × String)) :
    PipelineService.run ensure exec uploadOk indexResult now daxQueries =
      match ensure with
      | Except.error e => Except.error (RunError.indexCreationError e)
      | Except.ok _ =>
        match PipelineService.runQueries exec uploadOk now daxQueries [] [] with
        | Except.error e => Except.error e
        | Except.ok (extractedData, processedData) =>
          let status := if processedData.length > 0 then "completed" else "failed"
          if processedData.length > 0 then
            match indexResult with
            | Except.error e => Except.error (RunError.indexUploadError e)
            | Except.ok _ => Except.ok ⟨extractedData, processedData, status⟩
          else Except.ok ⟨extractedData, processedData, status⟩ := rfl
/-- Inversion for a run that returns a result: the loop completed with some
accumulators and the result is built from them, with the status computed
from the processed data. -/
theorem run_ok_inv (ensure : Except String Unit)
    (exec : String → Except String (Option PBEnvelope)) (uploadOk : String → Bool)
    (indexResult : Except String Bool) (now : Nat)
    (daxQueries : List (String × String)) (res : PipelineRunResult)
    (h : PipelineService.run ensure exec uploadOk indexResult now daxQueries
      = Except.ok res) :
    ∃ ext proc,
      PipelineService.runQueries exec uploadOk now daxQueries [] []
        = Except.ok (ext, proc) ∧
      res = ⟨ext, proc, if proc.length > 0 then "completed" else "failed"⟩ := by
  rw [run_eq] at h
  split at h
  · exact absurd h (by simp)
  · split at h
    · exact absurd h (by simp)
    · rename_i ext proc hq
      refine ⟨ext, proc, hq, ?_⟩
      dsimp only at h
      split at h
      · rename_i hlen
        split at h
        · exact absurd h (by simp)
        · rw [if_pos hlen]
          simpa using h.symm
      · rename_i hlen
        rw [if_neg hlen]
        simpa using h.symm

/-! ## Claim C7 -/

/-- Claim C7: every run that returns a `PipelineRunResult` has status
`completed` exactly when its processed data is non-empty, and every entry
of the processed data comes from a query of the input whose raw result was
non-null, whose normalization yielded that non-null row set, and whose
persistence call succeeded. -/
theorem run_status_iff (ensure : Except String Unit)
    (exec : String → Except String (Option PBEnvelope)) (uploadOk : String → Bool)
    (indexResult : Except String Bool) (now : Nat)
    (daxQueries : List (String × String)) (res : PipelineRunResult)
    (h : PipelineService.run ensure exec uploadOk indexResult now daxQueries
      = Except.ok res) :
    (res.pipelineStatus = "completed" ↔ res.processedData ≠ []) ∧
    (∀ p ∈ res.processedData,
      ∃ dax env, (p.1, dax) ∈ daxQueries ∧ exec p.1 = Except.ok (some env) ∧
        processPowerBiResponse (some env) = some p.2 ∧
        ((saveToParquet (uploadOk p.1) p.2 (pipelineBlobName p.1 now)).2).isOk
          = true) := by
  obtain ⟨ext, proc, hq, hres⟩ :=
    run_ok_inv ensure exec uploadOk indexResult now daxQueries res h
  subst hres
  constructor
  · dsimp only
    by_cases hlen : proc.length > 0
    · rw [if_pos hlen]
      exact ⟨fun _ => List.length_pos.mp hlen, fun _ => rfl⟩
    · rw [if_neg hlen]
      have hnil : proc = [] := by
        cases proc with
        | nil => rfl
        | cons a l => simp at hlen
      constructor
      · intro hx
        exact absurd hx (by decide)
      · intro hne
        exact absurd hnil hne
  · intro p hp
    rcases runQueries_mem exec uploadOk now daxQueries [] [] ext proc hq p hp with
      h1 | h2
    · simp at h1
    · exact h2

/-! ## Claim C10 -/

/-- Claim C10: in every `PipelineRunResult` returned by a run, the key
sequence of the raw-result mapping equals the key sequence of the
normalized mapping: both mappings are updated together. -/
theorem run_keys_eq (ensure : Except String Unit)
    (exec : String → Except String (Option PBEnvelope)) (uploadOk : String → Bool)
    (indexResult : Except String Bool) (now : Nat)
    (daxQueries : List (String × String)) (res : PipelineRunResult)
    (h : PipelineService.run ensure exec uploadOk indexResult now daxQueries
      = Except.ok res) :
    res.extractedData.map Prod.fst = res.processedData.map Prod.fst := by
  obtain ⟨ext, proc, hq, hres⟩ :=
    run_ok_inv ensure exec uploadOk indexResult now daxQueries res h
  subst hres
  exact runQueries_keys exec uploadOk now daxQueries [] [] ext proc hq rfl
/-! ## Claim C1 -/

/-- Counterexample to claim C1 as stated: with an executor for which query
`a` fails after all its retries while query `b` succeeds end to end (the
single-query run over `b` returns a completed result), the two-query run
does not return a `PipelineRunResult` at all — the uncaught executor error
aborts the run. -/
theorem run_catch_cx :
    ((fun n => if n = "a" then Except.error "boom"
        else Except.ok (some ⟨some [⟨some [⟨some [[("region", Scalar.s "A")]]⟩]⟩]⟩)
        : String → Except String (Option PBEnvelope)) "b"
      = Except.ok (some ⟨some [⟨some [⟨some [[("region", Scalar.s "A")]]⟩]⟩]⟩)) ∧
    PipelineService.run (Except.ok ())
        (fun n => if n = "a" then Except.error "boom"
          else Except.ok (some ⟨some [⟨some [⟨some [[("region", Scalar.s "A")]]⟩]⟩]⟩))
        (fun _ => true) (Except.ok true) 0 [("b", "qb")]
      = Except.ok ⟨[("b", ⟨some [⟨some [⟨some [[("region", Scalar.s "A")]]⟩]⟩]⟩)],
          [("b", [[("region", Scalar.s "A")]])], "completed"⟩ ∧
    (PipelineService.run (Except.ok ())
        (fun n => if n = "a" then Except.error "boom"
          else Except.ok (some ⟨some [⟨some [⟨some [[("region", Scalar.s "A")]]⟩]⟩]⟩))
        (fun _ => true) (Except.ok true) 0 [("a", "qa"), ("b", "qb")]).isOk
      = false := by
  refine ⟨?_, ?_, ?_⟩ <;> rfl

/-- Claim C1 (amended): the orchestrator does not catch a per-query
execution failure.  If the executor call for a query fails after all its
retries, the error propagates: the per-query loop aborts with that error
at the failing query, whatever queries remain, and a run whose query list
reaches such a query returns that error instead of a
`PipelineRunResult`. -/
theorem run_query_failure_aborts
    (exec : String → Except String (Option PBEnvelope)) (uploadOk : String → Bool)
    (indexResult : Except String Bool) (now : Nat) (queryName e : String)
    (h : exec queryName = Except.error e) :
    (∀ dax rest ext proc,
      PipelineService.runQueries exec uploadOk now ((queryName, dax) :: rest) ext proc
        = Except.error (RunError.queryError e)) ∧
    (∀ pre st dax rest,
      PipelineService.runQueries exec uploadOk now pre [] [] = Except.ok st →
      PipelineService.run (Except.ok ()) exec uploadOk indexResult now
          (pre ++ (queryName, dax) :: rest)
        = Except.error (RunError.queryError e)) := by
  have habort : ∀ dax rest ext proc,
      PipelineService.runQueries exec uploadOk now ((queryName, dax) :: rest) ext proc
        = Except.error (RunError.queryError e) := by
    intro dax rest ext proc
    rw [runQueries_cons, h]
  refine ⟨habort, ?_⟩
  intro pre st dax rest hpre
  obtain ⟨ext, proc⟩ := st
  have hq : PipelineService.runQueries exec uploadOk now
      (pre ++ (queryName, dax) :: rest) [] []
        = Except.error (RunError.queryError e) := by
    rw [runQueries_append, hpre]
    exact habort dax rest ext proc
  rw [run_eq, hq]

/-- Witness for the amended C1: a concrete executor that always fails makes
the one-query loop and the one-query run abort with its error. -/
theorem run_query_failure_aborts_witness :
    PipelineService.runQueries
        (fun _ => (Except.error "boom" : Except String (Option PBEnvelope)))
        (fun _ => true) 0 [("a", "qa")] [] []
      = Except.error (RunError.queryError "boom") ∧
    PipelineService.run (Except.ok ())
        (fun _ => (Except.error "boom" : Except String (Option PBEnvelope)))
        (fun _ => true) (Except.ok true) 0 [("a", "qa")]
      = Except.error (RunError.queryError "boom") := by
  have h := run_query_failure_aborts
    (fun _ => (Except.error "boom" : Except String (Option PBEnvelope)))
    (fun _ => true) (Except.ok true) 0 "a" "boom" rfl
  exact ⟨h.1 "qa" [] [] [], h.2 [] ([], []) "qa" [] rfl⟩

/-! ## Claim C9 -/

/-- Claim C9: an envelope whose first result has a non-empty tables array
but whose first table has a missing or empty rows array normalizes to the
empty row set `some []`, not null; in the orchestrator loop such an
envelope passes the non-null check and is handed to `saveToParquet`, which
rejects it as empty — the loop fails with the no-data persistence
error. -/
theorem normalize_empty_rowset_rejected (env : PBEnvelope) (first : PBResult)
    (rest : List PBResult) (t : PBTable) (ts : List PBTable)
    (h1 : env.results = some (first :: rest)) (h2 : first.tables = some (t :: ts))
    (h3 : t.rows = none ∨ t.rows = some []) :
    processPowerBiResponse (some env) = some [] ∧
    (∀ uploadOk blobName,
      (saveToParquet uploadOk [] blobName).2 = Except.error PersistError.noData) ∧
    (∀ exec uploadOk now queryName dax post ext proc,
      exec queryName = Except.ok (some env) →
      PipelineService.runQueries exec uploadOk now ((queryName, dax) :: post) ext proc
        = Except.error (RunError.persistError PersistError.noData)) := by
  have hnorm : processPowerBiResponse (some env) = some [] := by
    rcases h3 with h3 | h3 <;> simp [processPowerBiResponse, h1, h2, h3]
  refine ⟨hnorm, fun _ _ => rfl, ?_⟩
  intro exec uploadOk now queryName dax post ext proc hexec
  rw [runQueries_cons, hexec]
  simp [hnorm, saveToParquet]

/-- Witness for C9: a concrete envelope with one table whose rows array is
empty passes normalization as `some []` and makes the loop fail with the
no-data persistence error. -/
theorem normalize_empty_rowset_rejected_witness :
    processPowerBiResponse (some ⟨some [⟨some [⟨some []⟩]⟩]⟩) = some [] ∧
    PipelineService.runQueries
        (fun _ => Except.ok (some ⟨some [⟨some [⟨some []⟩]⟩]⟩))
        (fun _ => true) 0 [("q", "d")] [] []
      = Except.error (RunError.persistError PersistError.noData) := by
  have h := normalize_empty_rowset_rejected ⟨some [⟨some [⟨some []⟩]⟩]⟩
    ⟨some [⟨some []⟩]⟩ [] ⟨some []⟩ [] rfl rfl (Or.inr rfl)
  exact ⟨h.1, h.2.2 (fun _ => Except.ok (some ⟨some [⟨some [⟨some []⟩]⟩]⟩))
    (fun _ => true) 0 "q" "d" [] [] [] rfl⟩

/-! ## Remaining witnesses for the pipeline claims -/

/-- Witness for C7: a concrete one-query run returns status `completed`. -/
theorem run_status_iff_witness :
    (PipelineRunResult.mk [("q", ⟨some [⟨some [⟨some [[("x", Scalar.n 1)]]⟩]⟩]⟩)]
        [("q", [[("x", Scalar.n 1)]])] "completed").pipelineStatus = "completed" := by
  have h := run_status_iff (Except.ok ())
    (fun _ => Except.ok (some ⟨some [⟨some [⟨some [[("x", Scalar.n 1)]]⟩]⟩]⟩))
    (fun _ => true) (Except.ok true) 0 [("q", "d")]
    ⟨[("q", ⟨some [⟨some [⟨some [[("x", Scalar.n 1)]]⟩]⟩]⟩)],
      [("q", [[("x", Scalar.n 1)]])], "completed"⟩ rfl
  exact h.1.mpr (by simp)

/-- Witness for C10: a concrete one-query run has equal key sequences in
both mappings. -/
theorem run_keys_eq_witness :
    (PipelineRunResult.mk [("k", ⟨some [⟨some [⟨some [[("y", Scalar.b true)]]⟩]⟩]⟩)]
        [("k", [[("y", Scalar.b true)]])] "completed").extractedData.map Prod.fst
      = (PipelineRunResult.mk [("k", ⟨some [⟨some [⟨some [[("y", Scalar.b true)]]⟩]⟩]⟩)]
          [("k", [[("y", Scalar.b true)]])] "completed").processedData.map Prod.fst :=
  run_keys_eq (Except.ok ())
    (fun _ => Except.ok (some ⟨some [⟨some [⟨some [[("y", Scalar.b true)]]⟩]⟩]⟩))
    (fun _ => true) (Except.ok true) 0 [("k", "d")]
    ⟨[("k", ⟨some [⟨some [⟨some [[("y", Scalar.b true)]]⟩]⟩]⟩)],
      [("k", [[("y", Scalar.b true)]])], "completed"⟩ rfl
